import Mathlib

/-!
Verification of the Input-preparation pipeline of py-Galaxia-ananke
(`src/Galaxia_ananke/Input.py`) against its natural-language specification.

The particle dictionary is embedded as an association list from property
names to numeric arrays; numeric arrays are lists of real numbers (a value
of length N stands for any array whose leading dimension is N — the inner
columns of `pos3`/`vel3` play no role in the verified properties).
Floating-point arithmetic is embedded as exact real arithmetic.
-/

/-- `4*np.pi/3`, the constant `FOURTHIRDPI` of `Input.py`. -/
noncomputable def FOURTHIRDPI : ℝ := 4 * Real.pi / 3

/-- `np.cbrt`: the real cube root (negative inputs give negative roots). -/
noncomputable def cbrt (x : ℝ) : ℝ :=
  if x < 0 then -((-x) ^ ((1 : ℝ) / 3)) else x ^ ((1 : ℝ) / 3)

/-- A particle dictionary: association list from property key to array. -/
abbrev Pdict : Type := List (String × List ℝ)

/-- First-match lookup in a particle dictionary (Python `dict` access). -/
def plookup (k : String) : Pdict → Option (List ℝ)
  | [] => none
  | (k', v) :: t => if k' = k then some v else plookup k t

/-- The keys of a particle dictionary, in insertion order. -/
def pkeys (p : Pdict) : List String := p.map Prod.fst

/-- The five required particle property keys of `Input` (first components of
`_position_prop` … `_metallicity_prop`). -/
def requiredKeysList : List String := ["pos3", "vel3", "mass", "age", "feh"]

/-- The thirteen optional particle property keys of `Input`
(`_parentindex_prop` … `_alphaabundance_prop`). -/
def optionalKeysList : List String :=
  ["parentid", "id", "dform", "helium", "carbon", "nitrogen", "oxygen",
   "neon", "magnesium", "silicon", "sulphur", "calcium", "alpha"]

/-- The error taxonomy of the spec (§7).  `SchemaError` and
`LengthMismatchError` are validation failures, `FormatError` is a filename
pattern-parse failure (an `IndexError` escaping `re.findall(...)[0]` in the
source), `PyValueError`/`PyTypeError` model the `ValueError`/`TypeError`
raised by the source or by Python call semantics, and `BroadcastErr` models
a numpy error escaping the kernels derivation: either `rho_vel` is `None`
and `np.vstack`/arithmetic raises on it, or an array `k_factor` of
incompatible shape raises a broadcast `ValueError` (see `Input.kernels`). -/
inductive InputError where
  | SchemaError : InputError
  | LengthMismatchError : List String → InputError
  | FormatError : InputError
  | PyValueError : InputError
  | PyTypeError : InputError
  | BroadcastErr : InputError
deriving DecidableEq

/-- Modelled from the spec: `compare_given_and_required` lives in
`Galaxia_ananke/utils.py`, which is not under `src/`.  Spec contract (§4.1):
the validation succeeds exactly when every required key is present and every
given key belongs to required ∪ optional; otherwise a SchemaError is
raised. -/
def compare_given_and_required (given required optionalK : List String) : Bool :=
  required.all (fun r => given.contains r) &&
  given.all (fun g => required.contains g || optionalK.contains g)

/-- Modelled from the spec: `confirm_equal_length_arrays_in_dict` lives in
`Galaxia_ananke/utils.py`, which is not under `src/`.  Spec contract (§4.1):
it fails with a LengthMismatchError listing every key whose array length
differs from the reference (`mass`) array's length. -/
def mismatched_length_keys (p : Pdict) (ref : String) : List String :=
  (p.filter (fun kv => kv.2.length != ((plookup ref p).getD []).length)).map Prod.fst

/-- `np.arange(n)` as a real-valued array. -/
def arangeR (n : ℕ) : List ℝ := (List.range n).map (fun (j : ℕ) => (j : ℝ))

/-- The default-filling step of `Input.__verify_particles`: if `parentid`
is absent insert `np.arange(self.length)`, and if `dform` is absent insert
`0*self.particles['mass']` (numpy: zeros of the mass array's dtype). -/
def fillDefaults (p : Pdict) : Pdict :=
  let massArr := (plookup "mass" p).getD []
  let p1 := if "parentid" ∈ pkeys p then p else p ++ [("parentid", arangeR massArr.length)]
  if "dform" ∈ pkeys p1 then p1 else p1 ++ [("dform", massArr.map (fun x => 0 * x))]

/-- `Input.__verify_particles`: schema validation, then equal-length
validation against `mass`, then default filling. -/
def verifyParticles (p : Pdict) : Except InputError Pdict :=
  if !(compare_given_and_required (pkeys p) requiredKeysList optionalKeysList) then
    .error .SchemaError
  else if !(mismatched_length_keys p "mass").isEmpty then
    .error (.LengthMismatchError (mismatched_length_keys p "mass"))
  else
    .ok (fillDefaults p)

/-- A filename: parent directory and base name (`pathlib.Path` split into
`path.parent` and `path.name`). -/
structure FPath where
  dir : String
  base : String
deriving DecidableEq

/-- One decimal digit as a character. -/
def digitChar : ℕ → Char
  | 0 => '0' | 1 => '1' | 2 => '2' | 3 => '3' | 4 => '4'
  | 5 => '5' | 6 => '6' | 7 => '7' | 8 => '8' | _ => '9'

/-- Fuel-driven decimal digit expansion (most significant digit first). -/
def natDigitsAux : ℕ → ℕ → List Char → List Char
  | 0, _, acc => acc
  | fuel + 1, n, acc =>
    if n < 10 then digitChar n :: acc
    else natDigitsAux fuel (n / 10) (digitChar (n % 10) :: acc)

/-- Decimal digits of a natural number, as Python `str(n)` renders it. -/
def natDigits (n : ℕ) : List Char := natDigitsAux (n + 1) n []

/-- Python `str(n)` for a natural number. -/
def natStr (n : ℕ) : String := String.mk (natDigits n)

/-- Decimal value of a digit string, as Python `int(s)` computes it on an
all-digit string. -/
def digitsToNat (ds : List Char) : ℕ :=
  ds.foldl (fun a c => 10 * a + (c.toNat - 48)) 0

/-- Position `m` of `s` anchors a match of the regex `(.*).ebf`: the
unescaped `.` consumes `s[m]` and the literal `ebf` must follow. -/
def ebfAnchor (s : List Char) (m : ℕ) : Bool :=
  ((s.drop (m + 1)).take 3) == ['e', 'b', 'f']

/-- `re.findall("(.*).ebf", base)[0]` of the source (line 122): the first
match starts at 0 with a greedy group, so the group is the prefix before
the last anchor position; `none` models the `IndexError` (spec:
FormatError) when no match exists. -/
def parseP (base : String) : Option String :=
  match ((List.range base.toList.length).filter (ebfAnchor base.toList)).getLast? with
  | none => none
  | some m => some (String.mk (base.toList.take m))

/-- Attempt to match the regex `{name}_d(\d*)n(\d*)_den.ebf` at the head of
`s`, returning the two digit groups.  The greedy `\d*` runs need no
backtracking because the literals that follow them (`n`, `_`) are not
digits. -/
def matchKAt (nm : List Char) (s : List Char) : Option (List Char × List Char) :=
  if s.take nm.length ≠ nm then none else
  match s.drop nm.length with
  | '_' :: 'd' :: rest =>
    let d1 := rest.takeWhile Char.isDigit
    match rest.dropWhile Char.isDigit with
    | 'n' :: rest2 =>
      let d2 := rest2.takeWhile Char.isDigit
      match rest2.dropWhile Char.isDigit with
      | '_' :: 'd' :: 'e' :: 'n' :: _ :: 'e' :: 'b' :: 'f' :: _ => some (d1, d2)
      | _ => none
    | _ => none
  | _ => none

/-- Leftmost match of `{name}_d(\d*)n(\d*)_den.ebf` in `s`
(`re.findall(...)[0]` on line 123 of the source); `none` models the
`IndexError` (spec: FormatError) when the kernel filename violates the
pattern. -/
def parseK (nm : List Char) : List Char → Option (List Char × List Char)
  | [] => matchKAt nm []
  | c :: t =>
    match matchKAt nm (c :: t) with
    | some r => some r
    | none => parseK nm t

/-- The kernel EBF file: named arrays `density`, `h_cubic` (an Nx2 array of
position and velocity kernel lengths) and `mass`. -/
structure KernelFile where
  density : List ℝ
  h_cubic : List (ℝ × ℝ)
  mass : List ℝ

/-- Line 129 of the source:
`_k_factor = _k['h_cubic'][:,0] * np.cbrt(FOURTHIRDPI*_k['density'])`. -/
noncomputable def kFactorArr (kf : KernelFile) : List ℝ :=
  List.zipWith (fun h d => h.1 * cbrt (FOURTHIRDPI * d)) kf.h_cubic kf.density

/-- Machine epsilon of the `float64` dtype, `np.finfo(...).eps`. -/
noncomputable def f64eps : ℝ := (2 : ℝ) ^ (-(52 : ℤ))

/-- `np.round` followed by `astype('int')`: round half to even (the
truncation of `astype` is exact on the already-integral rounded value). -/
noncomputable def npRound (x : ℝ) : ℤ :=
  if Int.fract x = 1 / 2 then (if Even ⌊x⌋ then ⌊x⌋ else ⌊x⌋ + 1) else round x

/-- Insert into a sorted list of reals, keeping it sorted. -/
noncomputable def insertSorted (x : ℝ) : List ℝ → List ℝ
  | [] => [x]
  | y :: t => if x ≤ y then x :: y :: t else y :: insertSorted x t

/-- Ascending sort of a real array (`np.sort`; any comparison sort computes
the same function on a totally ordered carrier). -/
noncomputable def sortR (xs : List ℝ) : List ℝ := xs.foldr insertSorted []

/-- `np.median`: middle element of the sorted array, or the mean of the two
middle elements when the length is even. -/
noncomputable def npMedian (xs : List ℝ) : ℝ :=
  let s := sortR xs
  let n := s.length
  if n % 2 = 1 then s.getD (n / 2) 0
  else (s.getD (n / 2 - 1) 0 + s.getD (n / 2) 0) / 2

/-- Line 131 of the source:
`_knorm = _k_factor/(np.sqrt(ngb) * np.cbrt(FOURTHIRDPI))`. -/
noncomputable def knormRaw (ngb : ℕ) (kf : KernelFile) : List ℝ :=
  (kFactorArr kf).map (fun k => k / (Real.sqrt ngb * cbrt FOURTHIRDPI))

/-- Line 133 of the source: the per-particle `knorm` values collapse to a
scalar when they all round to the same integer after division by twice the
machine epsilon
(`len(np.unique(np.round(_knorm/(2*eps)).astype('int'))) == 1`). -/
noncomputable def collapseCheck (kn : List ℝ) : Bool :=
  ((kn.map (fun x => npRound (x / (2 * f64eps)))).dedup.length == 1)

/-- Lines 131–134 of the source (former-kernel convention): the possibly
collapsed normalization (`Sum.inl` a scalar, `Sum.inr` a per-particle
array) together with the recovered velocity density
`rho_vel = (np.sqrt(ngb) * _knorm / _k['h_cubic'][:,1])**3`. -/
noncomputable def formerDerive (ngb : ℕ) (kf : KernelFile) : (ℝ ⊕ List ℝ) × List ℝ :=
  let kn := knormRaw ngb kf
  if collapseCheck kn then
    (Sum.inl (npMedian kn),
     kf.h_cubic.map (fun h => (Real.sqrt ngb * npMedian kn / h.2) ^ 3))
  else
    (Sum.inr kn,
     List.zipWith (fun c h => (Real.sqrt ngb * c / h.2) ^ 3) kn kf.h_cubic)

/-- Line 137 of the source (current convention):
`rho_vel = (_k_factor / _k['h_cubic'][:,1])**3 / FOURTHIRDPI`. -/
noncomputable def currentRhoVel (kf : KernelFile) : List ℝ :=
  List.zipWith (fun k h => (k / h.2) ^ 3 / FOURTHIRDPI) (kFactorArr kf) kf.h_cubic

/-- Line 154 of the source in former-kernel file mode: the stored scale
factor is `np.sqrt(self.ngb) * __knorm * np.cbrt(FOURTHIRDPI)`, broadcast
over a scalar or per-particle `knorm`. -/
noncomputable def formerKF (ngb : ℕ) : (ℝ ⊕ List ℝ) → (ℝ ⊕ List ℝ)
  | .inl c => .inl (Real.sqrt ngb * c * cbrt FOURTHIRDPI)
  | .inr l => .inr (l.map (fun c => Real.sqrt ngb * c * cbrt FOURTHIRDPI))

/-- The state held by a constructed `Input`: the validated particle
dictionary, the densities, naming data, and the kernel scale factor (a
scalar in fresh mode, possibly a per-particle array in file mode). -/
structure Input where
  particles : Pdict
  rho_pos : List ℝ
  rho_vel : Option (List ℝ)
  input_dir : String
  name : String
  pname : Option FPath
  kname : Option FPath
  ngb : ℕ
  k_factor : ℝ ⊕ List ℝ
  files_exist : Bool

/-- A default `Input`, used only as a fallback for `Option.getD`. -/
def inputDefault : Input :=
  { particles := [], rho_pos := [], rho_vel := none, input_dir := "",
    name := "", pname := none, kname := none, ngb := 0,
    k_factor := Sum.inl 0, files_exist := false }

/-- Array-based construction of an `Input` (the `args` branch of
`Input.__init__`, lines 111–116 and 142–154): validation runs eagerly, the
scale factor is the caller's scalar `k_factor` (source default `1.`), and
no input files pre-exist. -/
def Input.fromArrays (p : Pdict) (rho_pos : List ℝ) (rho_vel : Option (List ℝ))
    (input_dir name : String) (ngb : ℕ) (k_factor : ℝ) : Except InputError Input :=
  match verifyParticles p with
  | .error e => .error e
  | .ok p' =>
    .ok { particles := p', rho_pos := rho_pos, rho_vel := rho_vel,
          input_dir := input_dir, name := name, pname := none, kname := none,
          ngb := ngb, k_factor := .inl k_factor, files_exist := false }

/-- File-based construction of an `Input` (the `pname`/`kname` branch of
`Input.__init__`, lines 117–139 and 142–154).  `pfile` and `kfile` are the
contents read from the particle and kernel EBF files.  The parent
directories must agree (`ValueError`), the particle name is parsed from
`pname` and `hdim`/`ngb` from `kname` (pattern violation: FormatError, an
empty digit group: `int('')` ValueError), the velocity density is
reconstructed by the selected convention, and validation runs on the read
particle dictionary. -/
noncomputable def Input.fromFiles (pn kn : FPath) (pfile : Pdict) (kfile : KernelFile)
    (former : Bool) : Except InputError Input :=
  if pn.dir ≠ kn.dir then .error .PyValueError else
  match parseP pn.base with
  | none => .error .FormatError
  | some nm =>
    match parseK nm.toList kn.base.toList with
    | none => .error .FormatError
    | some (d1, d2) =>
      if d1.isEmpty || d2.isEmpty then .error .PyValueError else
      let ngb := digitsToNat d2
      let kf := if former then formerKF ngb (formerDerive ngb kfile).1
                else .inr (kFactorArr kfile)
      let rv := if former then (formerDerive ngb kfile).2 else currentRhoVel kfile
      match verifyParticles pfile with
      | .error e => .error e
      | .ok p' =>
        .ok { particles := p', rho_pos := kfile.density, rho_vel := some rv,
              input_dir := pn.dir, name := nm, pname := some pn, kname := some kn,
              ngb := ngb, k_factor := kf, files_exist := true }

/-- `Input.length`: the length of the mass array. -/
def Input.length (i : Input) : ℕ := ((plookup "mass" i.particles).getD []).length

/-- The stored mass array, `self.particles['mass']`. -/
def Input.massArr (i : Input) : List ℝ := (plookup "mass" i.particles).getD []

/-- `Input.hdim`: `3 if self.rho_vel is None else 6`. -/
def Input.hdim (i : Input) : ℕ :=
  match i.rho_vel with
  | none => 3
  | some _ => 6

/-- `Input.rho`, `np.vstack([self.rho_pos, self.rho_vel]).T`, as rows of
(position density, velocity density) pairs.  When `rho_vel` is `None`,
numpy raises (the source carries `# TODO what if rho_vel is None` there);
`none` models that error. -/
def Input.rhoPairs (i : Input) : Option (List (ℝ × ℝ)) :=
  match i.rho_vel with
  | none => none
  | some rv => some (i.rho_pos.zip rv)

/-- `Input.kernels`: `self.k_factor/np.cbrt(FOURTHIRDPI*self.rho)`.  A
scalar (Python float) `k_factor` broadcasts over every entry of the
`(N,2)` density stack.  An array `k_factor` of shape `(N,)` follows
numpy's broadcasting rules against `(N,2)`: the trailing dimensions `N`
and `2` are compatible only when `N` is 1 (the single factor broadcasts
over every entry) or 2 (entry `j` of the factor is paired with *column*
`j` across all rows — not with particle `i`); any other length raises a
broadcast `ValueError`.  `none` models the raise, both here and when
`rho_vel` is `None` (see `Input.rhoPairs`). -/
noncomputable def Input.kernels (i : Input) : Option (List (ℝ × ℝ)) :=
  match i.rhoPairs with
  | none => none
  | some rows =>
    match i.k_factor with
    | .inl c =>
      some (rows.map (fun r => (c / cbrt (FOURTHIRDPI * r.1), c / cbrt (FOURTHIRDPI * r.2))))
    | .inr ks =>
      match ks with
      | [c] =>
        some (rows.map (fun r => (c / cbrt (FOURTHIRDPI * r.1), c / cbrt (FOURTHIRDPI * r.2))))
      | [c0, c1] =>
        some (rows.map (fun r => (c0 / cbrt (FOURTHIRDPI * r.1), c1 / cbrt (FOURTHIRDPI * r.2))))
      | _ => none

/-- `Input.kname`: the cached kernel filename, or
`{name}_d{hdim}n{ngb}_den.ebf` in the input directory. -/
def Input.knameF (i : Input) : FPath :=
  match i.kname with
  | some k => k
  | none => ⟨i.input_dir, i.name ++ "_d" ++ natStr i.hdim ++ "n" ++ natStr i.ngb ++ "_den.ebf"⟩

/-- `Input.pname`: the cached particle filename, or `{name}.ebf` in the
input directory. -/
def Input.pnameF (i : Input) : FPath :=
  match i.pname with
  | some p => p
  | none => ⟨i.input_dir, i.name ++ ".ebf"⟩

/-- `Input._write_kernels`: skipped entirely when the input files
pre-exist (returns no written content and the pre-existing path);
otherwise writes `density`, `h_cubic` and `mass`, failing if the kernels
derivation fails (see `Input.kernels`). -/
noncomputable def Input.write_kernels (i : Input) : Except InputError (Option KernelFile × FPath) :=
  if i.files_exist then .ok (none, i.knameF)
  else
    match i.kernels with
    | none => .error .BroadcastErr
    | some ks => .ok (some ⟨i.rho_pos, ks, i.massArr⟩, i.knameF)

/-- `Input._write_particles`: skipped entirely when the input files
pre-exist; otherwise writes one named array per required key (the stored
array) and one per optional key (the stored array if present, else
`np.zeros(self.length)`).  The source iterates over Python sets; the file
is modelled as the written name/array pairs in a fixed order. -/
def Input.write_particles (i : Input) : Option Pdict × FPath :=
  if i.files_exist then (none, i.pnameF)
  else
    (some (requiredKeysList.map (fun q => (q, (plookup q i.particles).getD [])) ++
           optionalKeysList.map (fun q => (q, (plookup q i.particles).getD (List.replicate i.length 0)))),
     i.pnameF)

/-- A parameter value in the generated parameter file: a string or a
number. -/
inductive PVal where
  | s : String → PVal
  | n : ℕ → PVal
deriving DecidableEq

/-- Modelled from the spec: the parameter-file tag for the photometric
category (`TTAGS.photo_categ` from `constants.py`, not under `src/`; the
exact spelling is unknown and only its distinctness matters). -/
def TT_photo_categ : String := "photo_categ"

/-- Modelled from the spec: the parameter-file tag for the photometric
system (`TTAGS.photo_sys` from `constants.py`, not under `src/`). -/
def TT_photo_sys : String := "photo_sys"

/-- Modelled from the spec: the parameter-file tag for the magnitude/color
name list (`TTAGS.mag_color_names` from `constants.py`, not under
`src/`). -/
def TT_mag_color_names : String := "mag_color_names"

/-- Modelled from the spec: the parameter-file tag for the neighbor count
(`TTAGS.nres` from `constants.py`, not under `src/`). -/
def TT_nres : String := "nres"

/-- Python `dict` assignment `d[k] = v`: overwrite in place if the key
exists, else append. -/
def setKey (d : List (String × PVal)) (k : String) (v : PVal) : List (String × PVal) :=
  if k ∈ d.map Prod.fst then d.map (fun kv => if kv.1 = k then (k, v) else kv)
  else d ++ [(k, v)]

/-- Python `dict.update` with a sequence of key/value assignments applied
left to right (last write wins). -/
def dictUpdate (d : List (String × PVal)) (kvs : List (String × PVal)) : List (String × PVal) :=
  kvs.foldl (fun acc kv => setKey acc kv.1 kv.2) d

/-- First-match lookup in a parameter mapping. -/
def vlookup (k : String) : List (String × PVal) → Option PVal
  | [] => none
  | (k', v) :: t => if k' = k then some v else vlookup k t

/-- A parameter-file path with its absolute/relative flavour. -/
structure PPath where
  absolute : Bool
  path : String
deriving DecidableEq

/-- Path resolution of `_write_parameter_file`: a relative parameter-file
path is resolved against the input directory, an absolute one passes
through untouched. -/
def resolveParfile (i : Input) (p : PPath) : PPath :=
  if p.absolute then p else ⟨false, i.input_dir ++ "/" ++ p.path⟩

/-- The four mandatory parameter-file fields of line 357 of the source:
photometric category, photometric system, magnitude/color name list, and
neighbor count. -/
def mandatoryFields (i : Input) (categ sysname magnames : String) : List (String × PVal) :=
  [(TT_photo_categ, .s categ), (TT_photo_sys, .s sysname),
   (TT_mag_color_names, .s magnames), (TT_nres, .n i.ngb)]

/-- `Input._write_parameter_file` (lines 352–359).  `defaults` stands for
`DEFAULTS_FOR_PARFILE` (from `constants.py`, not under `src/`, hence a
parameter), `parfileArg` for the popped `parfile` keyword, and `overrides`
for the remaining caller keyword arguments.  The source performs
`for_parfile.update(**{the four mandatory fields}, **kwargs)` in one call:
CPython rejects a duplicate keyword argument in a call, so a caller
override naming a mandatory key raises `TypeError`; otherwise the defaults
are updated with the mandatory fields and the overrides. -/
def Input.write_parameter_file (i : Input) (defaults : List (String × PVal))
    (categ sysname magnames : String) (parfileArg : PPath)
    (overrides : List (String × PVal)) : Except InputError (PPath × List (String × PVal)) :=
  let parfile := resolveParfile i parfileArg
  let mandatory := mandatoryFields i categ sysname magnames
  if ∃ kv ∈ overrides, ∃ mv ∈ mandatory, mv.1 = kv.1 then
    .error .PyTypeError
  else
    .ok (parfile, dictUpdate defaults (mandatory ++ overrides))

/-! ### Basic lemmas about dictionary lookup and default filling -/

theorem plookup_append (k : String) (a b : Pdict) :
    plookup k (a ++ b) = (plookup k a).or (plookup k b) := by
  induction a with
  | nil => simp [plookup]
  | cons kv t ih =>
    by_cases h : kv.1 = k
    · simp [plookup, h]
    · simp [plookup, h, ih]

theorem plookup_eq_none_iff (k : String) (p : Pdict) :
    plookup k p = none ↔ k ∉ pkeys p := by
  induction p with
  | nil => simp [plookup, pkeys]
  | cons kv t ih =>
    rw [pkeys, List.map_cons, List.mem_cons]
    by_cases h : kv.1 = k
    · rw [plookup, if_pos h]
      constructor
      · intro hn; cases hn
      · intro hn; exact absurd (Or.inl h.symm) hn
    · rw [plookup, if_neg h, ih, pkeys]
      constructor
      · intro hn hor
        rcases hor with hor | hor
        · exact h hor.symm
        · exact hn hor
      · intro hn hm
        exact hn (Or.inr hm)

theorem mem_pkeys_iff_plookup (k : String) (p : Pdict) :
    k ∈ pkeys p ↔ ∃ v, plookup k p = some v := by
  constructor
  · intro hk
    cases hv : plookup k p with
    | none => exact absurd ((plookup_eq_none_iff k p).1 hv) (by simp [hk])
    | some v => exact ⟨v, rfl⟩
  · rintro ⟨v, hv⟩
    by_contra hk
    rw [(plookup_eq_none_iff k p).2 hk] at hv
    cases hv

theorem plookup_keyed_map_mem (xs : List String) (f : String → List ℝ) (k : String)
    (hk : k ∈ xs) : plookup k (xs.map (fun a => (a, f a))) = some (f k) := by
  induction xs with
  | nil => cases hk
  | cons x t ih =>
    by_cases h : x = k
    · subst h; simp [plookup]
    · have hk' : k ∈ t := by
        rcases List.mem_cons.1 hk with h1 | h1
        · exact absurd h1.symm h
        · exact h1
      simp [plookup, h, ih hk']

theorem plookup_keyed_map_not_mem (xs : List String) (f : String → List ℝ) (k : String)
    (hk : k ∉ xs) : plookup k (xs.map (fun a => (a, f a))) = none := by
  induction xs with
  | nil => simp [plookup]
  | cons x t ih =>
    have hx : ¬(x = k) := fun e => hk (e ▸ List.mem_cons_self x t)
    have ht : k ∉ t := fun e => hk (List.mem_cons_of_mem x e)
    simp [plookup, hx, ih ht]

theorem pkeys_append (a b : Pdict) : pkeys (a ++ b) = pkeys a ++ pkeys b := by
  simp [pkeys]

theorem plookup_singleton_same (k : String) (v : List ℝ) :
    plookup k [(k, v)] = some v := by
  simp [plookup]

theorem plookup_singleton_other {k k' : String} (v : List ℝ) (h : k' ≠ k) :
    plookup k [(k', v)] = none := by
  simp [plookup, h]

theorem plookup_fillDefaults_of_some {p : Pdict} {k : String} {v : List ℝ}
    (h : plookup k p = some v) : plookup k (fillDefaults p) = some v := by
  simp only [fillDefaults]
  by_cases h1 : "parentid" ∈ pkeys p
  · rw [if_pos h1]
    by_cases h2 : "dform" ∈ pkeys p
    · rw [if_pos h2]; exact h
    · rw [if_neg h2, plookup_append, h]; rfl
  · rw [if_neg h1]
    by_cases h2 : "dform" ∈ pkeys (p ++ [("parentid", arangeR ((plookup "mass" p).getD []).length)])
    · rw [if_pos h2, plookup_append, h]; rfl
    · rw [if_neg h2, plookup_append, plookup_append, h]; rfl

theorem fillDefaults_parentid_of_not_mem {p : Pdict} (h : "parentid" ∉ pkeys p) :
    plookup "parentid" (fillDefaults p) =
      some (arangeR ((plookup "mass" p).getD []).length) := by
  have hnone : plookup "parentid" p = none := (plookup_eq_none_iff _ _).2 h
  have hfound : plookup "parentid"
      (p ++ [("parentid", arangeR ((plookup "mass" p).getD []).length)]) =
      some (arangeR ((plookup "mass" p).getD []).length) := by
    rw [plookup_append, hnone, plookup_singleton_same]; rfl
  simp only [fillDefaults]
  rw [if_neg h]
  by_cases h2 : "dform" ∈ pkeys (p ++ [("parentid", arangeR ((plookup "mass" p).getD []).length)])
  · rw [if_pos h2]; exact hfound
  · rw [if_neg h2, plookup_append, hfound]; rfl

theorem fillDefaults_dform_of_not_mem {p : Pdict} (h : "dform" ∉ pkeys p) :
    plookup "dform" (fillDefaults p) =
      some (((plookup "mass" p).getD []).map (fun x => 0 * x)) := by
  have hnone : plookup "dform" p = none := (plookup_eq_none_iff _ _).2 h
  simp only [fillDefaults]
  by_cases h1 : "parentid" ∈ pkeys p
  · rw [if_pos h1, if_neg h, plookup_append, hnone, plookup_singleton_same]; rfl
  · have hd1 : "dform" ∉ pkeys (p ++ [("parentid", arangeR ((plookup "mass" p).getD []).length)]) := by
      rw [pkeys_append]
      intro hmem
      rcases List.mem_append.1 hmem with hmem | hmem
      · exact h hmem
      · simp [pkeys] at hmem
    have hnone1 : plookup "dform"
        (p ++ [("parentid", arangeR ((plookup "mass" p).getD []).length)]) = none :=
      (plookup_eq_none_iff _ _).2 hd1
    rw [if_neg h1, if_neg hd1, plookup_append, hnone1, plookup_singleton_same]; rfl

/-! ### Lemmas about the cube root and positivity -/

theorem cbrt_of_nonneg {x : ℝ} (hx : 0 ≤ x) : cbrt x = x ^ ((1 : ℝ) / 3) :=
  if_neg (not_lt.2 hx)

theorem cbrt_pos {x : ℝ} (hx : 0 < x) : 0 < cbrt x := by
  rw [cbrt_of_nonneg hx.le]
  exact Real.rpow_pos_of_pos hx _

theorem cbrt_cube {x : ℝ} (hx : 0 ≤ x) : (cbrt x) ^ (3 : ℕ) = x := by
  rw [cbrt_of_nonneg hx, ← Real.rpow_natCast (x ^ ((1 : ℝ) / 3)) 3, ← Real.rpow_mul hx]
  norm_num

theorem FOURTHIRDPI_pos : 0 < FOURTHIRDPI := by
  unfold FOURTHIRDPI
  positivity

/-! ### Inversion lemmas for the constructors -/

theorem verifyParticles_ok {p p' : Pdict} (h : verifyParticles p = .ok p') :
    compare_given_and_required (pkeys p) requiredKeysList optionalKeysList = true ∧
    mismatched_length_keys p "mass" = [] ∧ p' = fillDefaults p := by
  unfold verifyParticles at h
  split at h
  · cases h
  · split at h
    · cases h
    · rename_i h1 h2
      refine ⟨by revert h1; cases compare_given_and_required (pkeys p) requiredKeysList optionalKeysList <;> simp, ?_, ?_⟩
      · revert h2
        cases hm : mismatched_length_keys p "mass" <;> simp
      · cases h; rfl

theorem fromArrays_ok {p : Pdict} {rp : List ℝ} {rv : Option (List ℝ)} {d nm : String}
    {ngb : ℕ} {k : ℝ} {i : Input}
    (h : Input.fromArrays p rp rv d nm ngb k = .ok i) :
    verifyParticles p = .ok i.particles ∧
    i = { particles := fillDefaults p, rho_pos := rp, rho_vel := rv, input_dir := d,
          name := nm, pname := none, kname := none, ngb := ngb,
          k_factor := .inl k, files_exist := false } := by
  unfold Input.fromArrays at h
  cases hv : verifyParticles p with
  | error e => rw [hv] at h; cases h
  | ok q =>
    rw [hv] at h
    obtain ⟨-, -, hq⟩ := verifyParticles_ok hv
    subst hq
    injection h with h2
    subst h2
    exact ⟨rfl, rfl⟩

/-! ### Error propagation through construction -/

theorem fromArrays_error {p : Pdict} {rp : List ℝ} {rv : Option (List ℝ)} {d nm : String}
    {ngb : ℕ} {k : ℝ} {e : InputError} (he : verifyParticles p = .error e) :
    Input.fromArrays p rp rv d nm ngb k = .error e := by
  unfold Input.fromArrays
  rw [he]

theorem verify_schema_error {p : Pdict}
    (hc : compare_given_and_required (pkeys p) requiredKeysList optionalKeysList = false) :
    verifyParticles p = .error .SchemaError := by
  unfold verifyParticles
  rw [hc]
  rfl

theorem verify_length_error {p : Pdict} {q : String} {t : List String}
    (hc : compare_given_and_required (pkeys p) requiredKeysList optionalKeysList = true)
    (hx : mismatched_length_keys p "mass" = q :: t) :
    verifyParticles p = .error (.LengthMismatchError (q :: t)) := by
  unfold verifyParticles
  rw [hc, hx]
  rfl

theorem contains_true_iff (l : List String) (a : String) : l.contains a = true ↔ a ∈ l := by
  induction l with
  | nil => simp
  | cons x t ih => simp [List.contains_cons] at ih ⊢

/-- C4: at array-based construction, validation runs eagerly: a particles
mapping missing any required key fails with a SchemaError, a mapping with
an extra key outside required ∪ optional fails with a SchemaError, and a
mapping passing the schema check in which some entry's array length
differs from the mass array's length fails with a LengthMismatchError
whose payload contains each offending key. -/
theorem c4_eager_validation (p : Pdict) (rp : List ℝ) (rv : Option (List ℝ))
    (d nm : String) (ngb : ℕ) (k : ℝ) :
    (∀ r ∈ requiredKeysList, r ∉ pkeys p →
       Input.fromArrays p rp rv d nm ngb k = .error .SchemaError) ∧
    (∀ x ∈ pkeys p, x ∉ requiredKeysList → x ∉ optionalKeysList →
       Input.fromArrays p rp rv d nm ngb k = .error .SchemaError) ∧
    (∀ q arr, (q, arr) ∈ p → arr.length ≠ ((plookup "mass" p).getD []).length →
       compare_given_and_required (pkeys p) requiredKeysList optionalKeysList = true →
       Input.fromArrays p rp rv d nm ngb k =
         .error (.LengthMismatchError (mismatched_length_keys p "mass")) ∧
       q ∈ mismatched_length_keys p "mass") := by
  refine ⟨?_, ?_, ?_⟩
  · intro r hr hnot
    apply fromArrays_error
    apply verify_schema_error
    cases hcomp : compare_given_and_required (pkeys p) requiredKeysList optionalKeysList with
    | false => rfl
    | true =>
      exfalso
      unfold compare_given_and_required at hcomp
      rw [Bool.and_eq_true] at hcomp
      have h1 := (List.all_eq_true.1 hcomp.1) r hr
      exact hnot ((contains_true_iff _ _).1 h1)
  · intro x hx hnr hno
    apply fromArrays_error
    apply verify_schema_error
    cases hcomp : compare_given_and_required (pkeys p) requiredKeysList optionalKeysList with
    | false => rfl
    | true =>
      exfalso
      unfold compare_given_and_required at hcomp
      rw [Bool.and_eq_true] at hcomp
      have h2 := (List.all_eq_true.1 hcomp.2) x hx
      rw [Bool.or_eq_true] at h2
      rcases h2 with h2 | h2
      · exact hnr ((contains_true_iff _ _).1 h2)
      · exact hno ((contains_true_iff _ _).1 h2)
  · intro q arr hmem hlen hcomp
    have hq : q ∈ mismatched_length_keys p "mass" := by
      unfold mismatched_length_keys
      exact List.mem_map.2 ⟨(q, arr), List.mem_filter.2 ⟨hmem, by simpa using hlen⟩, rfl⟩
    cases hx : mismatched_length_keys p "mass" with
    | nil => rw [hx] at hq; cases hq
    | cons y t =>
      rw [hx] at hq
      exact ⟨fromArrays_error (verify_length_error hcomp hx), hq⟩

def c4_missing : Pdict := [("pos3", [1]), ("vel3", [1]), ("age", [1]), ("feh", [1])]

def c4_extra : Pdict :=
  [("pos3", [1]), ("vel3", [1]), ("mass", [1]), ("age", [1]), ("feh", [1]), ("weird", [1])]

def c4_mismatch : Pdict :=
  [("pos3", [1]), ("vel3", [1]), ("mass", [1]), ("age", [1, 2]), ("feh", [1])]

theorem c4_eager_validation_witness :
    Input.fromArrays c4_missing [1] none "d" "sim" 64 1 = .error .SchemaError ∧
    Input.fromArrays c4_extra [1] none "d" "sim" 64 1 = .error .SchemaError ∧
    Input.fromArrays c4_mismatch [1] none "d" "sim" 64 1 =
      .error (.LengthMismatchError ["age"]) := by
  refine ⟨?_, ?_, ?_⟩
  · exact (c4_eager_validation c4_missing [1] none "d" "sim" 64 1).1 "mass" (by decide) (by decide)
  · exact (c4_eager_validation c4_extra [1] none "d" "sim" 64 1).2.1 "weird" (by decide) (by decide) (by decide)
  · exact ((c4_eager_validation c4_mismatch [1] none "d" "sim" 64 1).2.2 "age" [1, 2]
      (by simp [c4_mismatch]) (by simp [c4_mismatch, plookup]) (by decide)).1

theorem arangeR_length (n : ℕ) : (arangeR n).length = n := by
  rw [arangeR, List.length_map, List.length_range]

theorem arangeR_getD (n j : ℕ) (hj : j < n) : (arangeR n).getD j 0 = (j : ℝ) := by
  have hlen : j < (arangeR n).length := by rw [arangeR_length]; exact hj
  rw [List.getD_eq_getElem _ _ hlen]
  simp only [arangeR, List.getElem_map, List.getElem_range]

/-- C8: after array-based construction, an absent `parentid` key is
defaulted to `np.arange(length)` — the sequence 0..n-1 where n is the
mass array's length — and an absent `dform` key is defaulted to
`0*particles['mass']`, an all-zero array of the mass array's length (and,
in numpy, of the mass array's dtype). -/
theorem c8_default_filling (p : Pdict) (rp : List ℝ) (rv : Option (List ℝ))
    (d nm : String) (ngb : ℕ) (k : ℝ) (i : Input)
    (h : Input.fromArrays p rp rv d nm ngb k = .ok i) :
    ("parentid" ∉ pkeys p →
       plookup "parentid" i.particles =
         some (arangeR ((plookup "mass" p).getD []).length) ∧
       (arangeR ((plookup "mass" p).getD []).length).length =
         ((plookup "mass" p).getD []).length ∧
       (∀ j, j < ((plookup "mass" p).getD []).length →
          (arangeR ((plookup "mass" p).getD []).length).getD j 0 = (j : ℝ))) ∧
    ("dform" ∉ pkeys p →
       plookup "dform" i.particles =
         some (((plookup "mass" p).getD []).map (fun x => 0 * x)) ∧
       (((plookup "mass" p).getD []).map (fun x => 0 * x)).length =
         ((plookup "mass" p).getD []).length ∧
       (∀ y ∈ ((plookup "mass" p).getD []).map (fun x => 0 * x), y = 0)) := by
  obtain ⟨-, hi⟩ := fromArrays_ok h
  subst hi
  constructor
  · intro hno
    refine ⟨fillDefaults_parentid_of_not_mem hno, arangeR_length _, ?_⟩
    intro j hj
    exact arangeR_getD _ _ hj
  · intro hno
    refine ⟨fillDefaults_dform_of_not_mem hno, by simp, ?_⟩
    intro y hy
    rcases List.mem_map.1 hy with ⟨x, -, hx⟩
    rw [← hx, zero_mul]

def c8p : Pdict := [("pos3", [5]), ("vel3", [5]), ("mass", [5]), ("age", [5]), ("feh", [5])]

noncomputable def c8i : Input :=
  (Input.fromArrays c8p [1] none "d" "sim" 64 1).toOption.getD inputDefault

theorem c8_default_filling_witness :
    plookup "parentid" c8i.particles = some (arangeR 1) ∧
    plookup "dform" c8i.particles = some ([(5 : ℝ)].map (fun x => 0 * x)) := by
  have h := c8_default_filling c8p [1] none "d" "sim" 64 1 c8i rfl
  exact ⟨(h.1 (by decide)).1, (h.2 (by decide)).1⟩

def c2p : Pdict := [("pos3", [2]), ("vel3", [2]), ("mass", [2]), ("age", [2]), ("feh", [2])]

noncomputable def c2i : Input :=
  (Input.fromArrays c2p [1] none "d" "sim" 64 1).toOption.getD inputDefault

/-- C2: the failing input for the claim.  A fresh `Input` with
`rho_vel = None` has `hdim = 3`, but its kernels derivation fails — the
`rho` property stacks `rho_vel = None` into `np.vstack` and numpy raises
(the source marks this `# TODO what if rho_vel is None`) — so no
position-only kernel array is ever produced, and `_write_kernels` fails
too, contrary to the claim that the kernel formula applies to the
position density whenever the velocity density is absent.  (When
`rho_vel` is present, the kernels do satisfy the claimed elementwise
formula; that is established as part of the round-trip theorem.) -/
theorem c2_kernels_fail_when_rho_vel_none :
    c2i.rho_vel = none ∧ c2i.hdim = 3 ∧ c2i.rho_pos = [1] ∧
    c2i.kernels = none ∧ c2i.write_kernels = .error .BroadcastErr :=
  ⟨rfl, rfl, rfl, rfl, rfl⟩

/-- Inversion of a successful file-based construction: the parses
succeeded and the resulting state is determined by the file contents and
the selected convention. -/
theorem fromFiles_ok {pn kn : FPath} {pfile : Pdict} {kfile : KernelFile} {former : Bool}
    {i : Input} (h : Input.fromFiles pn kn pfile kfile former = .ok i) :
    ∃ nm d1 d2,
      parseP pn.base = some nm ∧
      parseK nm.toList kn.base.toList = some (d1, d2) ∧
      verifyParticles pfile = .ok (fillDefaults pfile) ∧
      i = { particles := fillDefaults pfile, rho_pos := kfile.density,
            rho_vel := some (if former then (formerDerive (digitsToNat d2) kfile).2
                             else currentRhoVel kfile),
            input_dir := pn.dir, name := nm, pname := some pn, kname := some kn,
            ngb := digitsToNat d2,
            k_factor := (if former then formerKF (digitsToNat d2) (formerDerive (digitsToNat d2) kfile).1
                         else .inr (kFactorArr kfile)),
            files_exist := true } := by
  simp only [Input.fromFiles] at h
  split at h
  · cases h
  · split at h
    · cases h
    · rename_i nm hnm
      split at h
      · cases h
      · rename_i pr d1 d2 hpr
        split at h
        · cases h
        · split at h
          · cases h
          · rename_i p' hver
            obtain ⟨-, -, hp'⟩ := verifyParticles_ok hver
            subst hp'
            injection h with h2
            subst h2
            exact ⟨nm, d1, d2, hnm, hpr, hver, rfl⟩

/-- C9: writing an `Input` constructed from pre-existing files performs no
write at all — no file content is produced by either writer, the state is
untouched (the writers are observationally pure here) — and each writer
returns the pre-existing path unchanged. -/
theorem c9_file_mode_skips_writes (pn kn : FPath) (pfile : Pdict) (kfile : KernelFile)
    (former : Bool) (i : Input)
    (h : Input.fromFiles pn kn pfile kfile former = .ok i) :
    i.write_kernels = .ok (none, kn) ∧ i.write_particles = (none, pn) ∧
    i.knameF = kn ∧ i.pnameF = pn ∧ i.files_exist = true := by
  obtain ⟨nm, d1, d2, -, -, -, hi⟩ := fromFiles_ok h
  subst hi
  exact ⟨rfl, rfl, rfl, rfl, rfl⟩

def smallParticles : Pdict :=
  [("pos3", [1]), ("vel3", [1]), ("mass", [1]), ("age", [1]), ("feh", [1])]

def smallKernel : KernelFile := ⟨[1], [(1, 1)], [1]⟩

noncomputable def c9i : Input :=
  (Input.fromFiles ⟨"d", "sim.ebf"⟩ ⟨"d", "sim_d6n64_den.ebf"⟩
    smallParticles smallKernel false).toOption.getD inputDefault

theorem c9_file_mode_skips_writes_witness :
    c9i.write_kernels = .ok (none, ⟨"d", "sim_d6n64_den.ebf"⟩) ∧
    c9i.write_particles = (none, ⟨"d", "sim.ebf"⟩) := by
  have h := c9_file_mode_skips_writes ⟨"d", "sim.ebf"⟩ ⟨"d", "sim_d6n64_den.ebf"⟩
    smallParticles smallKernel false c9i rfl
  exact ⟨h.1, h.2.1⟩

/-- C10: every successfully constructed file-based `Input` stores a
reconstructed velocity density — `rho_vel` is never `None` in this mode —
so `hdim` equals 6 regardless of the dimension digit parsed from the
kernel filename. -/
theorem c10_file_mode_hdim_six (pn kn : FPath) (pfile : Pdict) (kfile : KernelFile)
    (former : Bool) (i : Input)
    (h : Input.fromFiles pn kn pfile kfile former = .ok i) :
    i.rho_vel ≠ none ∧ i.hdim = 6 := by
  obtain ⟨nm, d1, d2, -, -, -, hi⟩ := fromFiles_ok h
  subst hi
  exact ⟨by simp, rfl⟩

noncomputable def c10i : Input :=
  (Input.fromFiles ⟨"d", "sim.ebf"⟩ ⟨"d", "sim_d3n64_den.ebf"⟩
    smallParticles smallKernel false).toOption.getD inputDefault

theorem c10_file_mode_hdim_six_witness : c10i.rho_vel ≠ none ∧ c10i.hdim = 6 :=
  c10_file_mode_hdim_six ⟨"d", "sim.ebf"⟩ ⟨"d", "sim_d3n64_den.ebf"⟩
    smallParticles smallKernel false c10i rfl

/-- C7: from `sim.ebf` the particle name parses to `sim`; from
`sim_d6n64_den.ebf` the digit groups parse exactly to "6" and "64", so
hdim = 6 and ngb = 64, and a successfully constructed file-based Input
stores ngb = 64 and name `sim`; a kernel filename on which the
`{name}_d(\d*)n(\d*)_den.ebf` pattern finds no match makes construction
fail with a FormatError. -/
theorem c7_filename_parsing :
    parseP "sim.ebf" = some "sim" ∧
    parseK "sim".toList "sim_d6n64_den.ebf".toList = some (['6'], ['6', '4']) ∧
    digitsToNat ['6'] = 6 ∧ digitsToNat ['6', '4'] = 64 ∧
    (∀ (d : String) (pfile : Pdict) (kfile : KernelFile) (i : Input),
       Input.fromFiles ⟨d, "sim.ebf"⟩ ⟨d, "sim_d6n64_den.ebf"⟩ pfile kfile false = .ok i →
       i.ngb = 64 ∧ i.name = "sim") ∧
    (∀ (d kbase : String) (pfile : Pdict) (kfile : KernelFile) (former : Bool),
       parseK "sim".toList kbase.toList = none →
       Input.fromFiles ⟨d, "sim.ebf"⟩ ⟨d, kbase⟩ pfile kfile former = .error .FormatError) := by
  refine ⟨rfl, by decide, rfl, rfl, ?_, ?_⟩
  · intro d pfile kfile i h
    obtain ⟨nm, d1, d2, hnm, hpr, -, hi⟩ := fromFiles_ok h
    have hnm' : nm = "sim" := by
      have : parseP "sim.ebf" = some "sim" := rfl
      rw [this] at hnm
      injection hnm with h2
      exact h2.symm
    subst hnm'
    have hd : (d1, d2) = (['6'], ['6', '4']) := by
      have : parseK "sim".toList "sim_d6n64_den.ebf".toList = some (['6'], ['6', '4']) := by decide
      rw [this] at hpr
      injection hpr with h2
      exact h2.symm
    have hd2 : d2 = ['6', '4'] := congrArg Prod.snd hd
    subst hd2 hi
    exact ⟨rfl, rfl⟩
  · intro d kbase pfile kfile former hnone
    have hp : parseP "sim.ebf" = some "sim" := rfl
    have hnone' : parseK ['s', 'i', 'm'] kbase.data = none := hnone
    simp [Input.fromFiles, hp, hnone']

theorem pkeys_keyed_map (xs : List String) (f : String → List ℝ) :
    pkeys (xs.map (fun a => (a, f a))) = xs := by
  induction xs with
  | nil => rfl
  | cons x t ih =>
    simp only [pkeys, List.map_map, List.map_cons] at ih ⊢
    exact congrArg (List.cons x) ih

theorem optional_not_required : ∀ q ∈ optionalKeysList, q ∉ requiredKeysList := by decide

theorem verify_ok_required_present {p p' : Pdict} (h : verifyParticles p = .ok p')
    (q : String) (hq : q ∈ requiredKeysList) : ∃ arr, plookup q p' = some arr := by
  obtain ⟨hc, -, hp'⟩ := verifyParticles_ok h
  subst hp'
  unfold compare_given_and_required at hc
  rw [Bool.and_eq_true] at hc
  have h1 := (List.all_eq_true.1 hc.1) q hq
  obtain ⟨v, hv⟩ := (mem_pkeys_iff_plookup q p).1 ((contains_true_iff _ _).1 h1)
  exact ⟨v, plookup_fillDefaults_of_some hv⟩

/-- C6: writing the particle file for a fresh (array-based) `Input` emits
exactly one named array per required key — the stored array — and one per
optional key: the stored array when the key is present, otherwise a
zero-filled array of length equal to the particle count; so every
optional key is always present in the written file. -/
theorem c6_particle_file_schema (p : Pdict) (rp : List ℝ) (rv : Option (List ℝ))
    (d nm : String) (ngb : ℕ) (k : ℝ) (i : Input) (file : Pdict)
    (h : Input.fromArrays p rp rv d nm ngb k = .ok i)
    (hf : (i.write_particles).1 = some file) :
    pkeys file = requiredKeysList ++ optionalKeysList ∧
    (∀ q ∈ requiredKeysList,
       ∃ arr, plookup q i.particles = some arr ∧ plookup q file = some arr) ∧
    (∀ q ∈ optionalKeysList,
       plookup q file = some ((plookup q i.particles).getD (List.replicate i.length 0))) ∧
    (∀ q ∈ optionalKeysList, q ∉ pkeys i.particles →
       plookup q file = some (List.replicate i.length 0)) := by
  obtain ⟨hver, hi⟩ := fromArrays_ok h
  have hfile : file =
      requiredKeysList.map (fun q => (q, (plookup q i.particles).getD [])) ++
      optionalKeysList.map (fun q => (q, (plookup q i.particles).getD (List.replicate i.length 0))) := by
    have hred : (i.write_particles).1 =
        some (requiredKeysList.map (fun q => (q, (plookup q i.particles).getD [])) ++
          optionalKeysList.map (fun q => (q, (plookup q i.particles).getD (List.replicate i.length 0)))) := by
      subst hi; rfl
    rw [hred] at hf
    injection hf with h2
    exact h2.symm
  subst hfile
  refine ⟨?_, ?_, ?_, ?_⟩
  · rw [pkeys] at *
    rw [List.map_append, ← pkeys, ← pkeys, pkeys_keyed_map, pkeys_keyed_map]
  · intro q hq
    obtain ⟨arr, harr⟩ := verify_ok_required_present hver q hq
    refine ⟨arr, harr, ?_⟩
    rw [plookup_append, plookup_keyed_map_mem _ _ _ hq, harr]
    try rfl
  · intro q hq
    rw [plookup_append, plookup_keyed_map_not_mem _ _ _ (optional_not_required q hq),
      plookup_keyed_map_mem _ _ _ hq]
    try rfl
  · intro q hq hnot
    have hnone : plookup q i.particles = none := (plookup_eq_none_iff _ _).2 hnot
    rw [plookup_append, plookup_keyed_map_not_mem _ _ _ (optional_not_required q hq),
      plookup_keyed_map_mem _ _ _ hq, hnone]
    try rfl

noncomputable def c6i : Input :=
  (Input.fromArrays smallParticles [1] (some [1]) "d" "sim" 64 1).toOption.getD inputDefault

noncomputable def c6file : Pdict := ((c6i.write_particles).1).getD []

theorem c6_particle_file_schema_witness :
    pkeys c6file = requiredKeysList ++ optionalKeysList ∧
    plookup "helium" c6file = some (List.replicate c6i.length 0) ∧
    plookup "mass" c6file = some [(1 : ℝ)] := by
  have h := c6_particle_file_schema smallParticles [1] (some [1]) "d" "sim" 64 1 c6i c6file rfl rfl
  refine ⟨h.1, ?_, ?_⟩
  · refine h.2.2.2 "helium" (by decide) ?_
    have hk : pkeys c6i.particles =
        ["pos3", "vel3", "mass", "age", "feh", "parentid", "dform"] := rfl
    intro hmem
    rw [hk] at hmem
    revert hmem
    decide
  · obtain ⟨arr, ha, hb⟩ := h.2.1 "mass" (by decide)
    have ha' : plookup "mass" c6i.particles = some [(1 : ℝ)] := rfl
    rw [ha'] at ha
    obtain rfl : [(1 : ℝ)] = arr := Option.some.inj ha
    exact hb

noncomputable def c7i : Input :=
  (Input.fromFiles ⟨"d", "sim.ebf"⟩ ⟨"d", "sim_d6n64_den.ebf"⟩
    smallParticles smallKernel false).toOption.getD inputDefault

theorem c7_filename_parsing_witness :
    c7i.ngb = 64 ∧ c7i.name = "sim" ∧
    Input.fromFiles ⟨"d", "sim.ebf"⟩ ⟨"d", "sim_den.ebf"⟩ smallParticles smallKernel false =
      .error .FormatError := by
  have h := c7_filename_parsing
  exact ⟨(h.2.2.2.2.1 "d" smallParticles smallKernel c7i rfl).1,
         (h.2.2.2.2.1 "d" smallParticles smallKernel c7i rfl).2,
         h.2.2.2.2.2 "d" "sim_den.ebf" smallParticles smallKernel false (by decide)⟩

/-! ### Lemmas about Python dict update for the parameter file -/

theorem vlookup_append (k : String) (a b : List (String × PVal)) :
    vlookup k (a ++ b) = (vlookup k a).or (vlookup k b) := by
  induction a with
  | nil => simp [vlookup]
  | cons kv t ih =>
    by_cases h : kv.1 = k
    · simp [vlookup, h]
    · simp [vlookup, h, ih]

theorem vlookup_eq_none_of_not_mem (d : List (String × PVal)) (k : String)
    (h : k ∉ d.map Prod.fst) : vlookup k d = none := by
  induction d with
  | nil => rfl
  | cons kv t ih =>
    have h1 : ¬(kv.1 = k) := fun e => h (List.mem_map.2 ⟨kv, List.mem_cons_self _ _, e⟩)
    have h2 : k ∉ t.map Prod.fst := fun e => h (by
      rcases List.mem_map.1 e with ⟨x, hx, hxk⟩
      exact List.mem_map.2 ⟨x, List.mem_cons_of_mem _ hx, hxk⟩)
    rw [vlookup, if_neg h1]
    exact ih h2

theorem vlookup_map_if_mem (t : List (String × PVal)) (k : String) (v : PVal)
    (hmem : k ∈ t.map Prod.fst) :
    vlookup k (t.map (fun kv => if kv.1 = k then (k, v) else kv)) = some v := by
  induction t with
  | nil => cases hmem
  | cons kv t ih =>
    rw [List.map_cons]
    by_cases h : kv.1 = k
    · rw [if_pos h, vlookup, if_pos rfl]
    · rw [if_neg h, vlookup, if_neg h]
      apply ih
      rcases List.mem_map.1 hmem with ⟨x, hx, hxk⟩
      rcases List.mem_cons.1 hx with hx | hx
      · exact absurd (hx ▸ hxk) h
      · exact List.mem_map.2 ⟨x, hx, hxk⟩

theorem vlookup_map_if_other (t : List (String × PVal)) {k k' : String} (v : PVal)
    (h : k' ≠ k) :
    vlookup k' (t.map (fun kv => if kv.1 = k then (k, v) else kv)) = vlookup k' t := by
  induction t with
  | nil => rfl
  | cons kv t ih =>
    rw [List.map_cons]
    by_cases hk : kv.1 = k
    · have hne1 : ¬(k = k') := fun e => h e.symm
      have hne2 : ¬(kv.1 = k') := fun e => h (by rw [← e, hk])
      rw [if_pos hk, vlookup, if_neg hne1, vlookup, if_neg hne2]
      exact ih
    · by_cases hkk : kv.1 = k'
      · rw [if_neg hk, vlookup, if_pos hkk, vlookup, if_pos hkk]
      · rw [if_neg hk, vlookup, if_neg hkk, vlookup, if_neg hkk]
        exact ih

theorem vlookup_setKey_same (d : List (String × PVal)) (k : String) (v : PVal) :
    vlookup k (setKey d k v) = some v := by
  unfold setKey
  split
  · exact vlookup_map_if_mem _ _ _ (by assumption)
  · rename_i hmem
    rw [vlookup_append, vlookup_eq_none_of_not_mem _ _ hmem]
    simp [vlookup]

theorem vlookup_setKey_other (d : List (String × PVal)) {k k' : String} (v : PVal)
    (h : k' ≠ k) : vlookup k' (setKey d k v) = vlookup k' d := by
  unfold setKey
  split
  · exact vlookup_map_if_other _ _ h
  · rw [vlookup_append, vlookup, if_neg (fun e => h e.symm)]
    cases vlookup k' d <;> rfl

theorem vlookup_dictUpdate_not_mem (d : List (String × PVal)) (kvs : List (String × PVal))
    (k : String) (hk : k ∉ kvs.map Prod.fst) :
    vlookup k (dictUpdate d kvs) = vlookup k d := by
  induction kvs generalizing d with
  | nil => rfl
  | cons kv t ih =>
    have h1 : k ≠ kv.1 := fun e => hk (List.mem_map.2 ⟨kv, List.mem_cons_self _ _, e.symm⟩)
    have h2 : k ∉ t.map Prod.fst := fun e => hk (by
      rcases List.mem_map.1 e with ⟨x, hx, hxk⟩
      exact List.mem_map.2 ⟨x, List.mem_cons_of_mem _ hx, hxk⟩)
    rw [dictUpdate, List.foldl_cons, ← dictUpdate, ih _ h2, vlookup_setKey_other _ _ h1]

theorem vlookup_dictUpdate_mem_nodup (d : List (String × PVal)) (kvs : List (String × PVal))
    (k : String) (v : PVal) (hmem : (k, v) ∈ kvs) (hnd : (kvs.map Prod.fst).Nodup) :
    vlookup k (dictUpdate d kvs) = some v := by
  induction kvs generalizing d with
  | nil => cases hmem
  | cons kv t ih =>
    rw [List.map_cons, List.nodup_cons] at hnd
    rcases List.mem_cons.1 hmem with hmem1 | hmem1
    · have hknot : k ∉ t.map Prod.fst := by
        have h1 : kv.1 = k := by rw [← hmem1]
        rw [← h1]
        exact hnd.1
      rw [dictUpdate, List.foldl_cons, ← dictUpdate,
        vlookup_dictUpdate_not_mem _ _ _ hknot]
      have hkv : kv = (k, v) := hmem1.symm
      rw [hkv]
      exact vlookup_setKey_same d k v
    · rw [dictUpdate, List.foldl_cons, ← dictUpdate]
      exact ih _ hmem1 hnd.2

theorem dictUpdate_append (d : List (String × PVal)) (a b : List (String × PVal)) :
    dictUpdate d (a ++ b) = dictUpdate (dictUpdate d a) b := by
  unfold dictUpdate
  rw [List.foldl_append]

/-- C5 counterexample: the claim says the four mandatory fields are applied
after the caller overrides and therefore win for those keys.  In the source
the mandatory fields and the caller keywords are passed in one
`for_parfile.update(**{mandatory}, **kwargs)` call, and CPython rejects a
duplicate keyword argument in a call, so a caller override naming the
neighbor-count tag makes the write raise TypeError — it does not return a
resolved mapping at all. -/
theorem c5_mandatory_override_type_error :
    inputDefault.write_parameter_file [] "categ" "sys" "mags" ⟨true, "p"⟩
      [(TT_nres, PVal.n 5)] = .error .PyTypeError := by
  simp only [Input.write_parameter_file]
  rw [if_pos]
  exact ⟨(TT_nres, PVal.n 5), by simp, (TT_nres, PVal.n inputDefault.ngb),
    by simp [mandatoryFields], rfl⟩

/-- C5 (amended): the resolved parameter mapping is the defaults updated,
in one call, with the four mandatory fields and the caller overrides; when
the caller's keys are disjoint from the four mandatory keys the call
succeeds, returns the written (resolved) path together with the resolved
mapping, the mandatory fields win over the defaults for their four keys,
and each caller override wins over the defaults for its key (last write
wins); a caller override naming a mandatory key instead raises TypeError
(see the counterexample). -/
theorem c5_parameter_merge_amended (i : Input) (defaults : List (String × PVal))
    (categ sysname magnames : String) (parfileArg : PPath)
    (overrides : List (String × PVal))
    (hdisj : ∀ kv ∈ overrides,
       kv.1 ∉ (mandatoryFields i categ sysname magnames).map Prod.fst) :
    i.write_parameter_file defaults categ sysname magnames parfileArg overrides =
      .ok (resolveParfile i parfileArg,
        dictUpdate defaults (mandatoryFields i categ sysname magnames ++ overrides)) ∧
    vlookup TT_photo_categ
      (dictUpdate defaults (mandatoryFields i categ sysname magnames ++ overrides)) =
      some (.s categ) ∧
    vlookup TT_photo_sys
      (dictUpdate defaults (mandatoryFields i categ sysname magnames ++ overrides)) =
      some (.s sysname) ∧
    vlookup TT_mag_color_names
      (dictUpdate defaults (mandatoryFields i categ sysname magnames ++ overrides)) =
      some (.s magnames) ∧
    vlookup TT_nres
      (dictUpdate defaults (mandatoryFields i categ sysname magnames ++ overrides)) =
      some (.n i.ngb) ∧
    (∀ k v, (k, v) ∈ overrides → (overrides.map Prod.fst).Nodup →
      vlookup k (dictUpdate defaults (mandatoryFields i categ sysname magnames ++ overrides)) =
        some v) := by
  have hnotin : ∀ kk, kk ∈ (mandatoryFields i categ sysname magnames).map Prod.fst →
      kk ∉ overrides.map Prod.fst := by
    intro kk hkk hov
    rcases List.mem_map.1 hov with ⟨kv, hkv, hkvk⟩
    exact hdisj kv hkv (hkvk ▸ hkk)
  have hsplit : dictUpdate defaults (mandatoryFields i categ sysname magnames ++ overrides) =
      dictUpdate (dictUpdate defaults (mandatoryFields i categ sysname magnames)) overrides :=
    dictUpdate_append _ _ _
  have hchain : dictUpdate defaults (mandatoryFields i categ sysname magnames) =
      setKey (setKey (setKey (setKey defaults TT_photo_categ (.s categ))
        TT_photo_sys (.s sysname)) TT_mag_color_names (.s magnames)) TT_nres (.n i.ngb) := rfl
  refine ⟨?_, ?_, ?_, ?_, ?_, ?_⟩
  · simp only [Input.write_parameter_file]
    rw [if_neg]
    rintro ⟨kv, hkv, mv, hmv, heq⟩
    exact hdisj kv hkv (List.mem_map.2 ⟨mv, hmv, heq⟩)
  · rw [hsplit, vlookup_dictUpdate_not_mem _ _ _
      (hnotin _ (by simp [mandatoryFields])), hchain,
      vlookup_setKey_other _ _ (by decide), vlookup_setKey_other _ _ (by decide),
      vlookup_setKey_other _ _ (by decide), vlookup_setKey_same]
  · rw [hsplit, vlookup_dictUpdate_not_mem _ _ _
      (hnotin _ (by simp [mandatoryFields])), hchain,
      vlookup_setKey_other _ _ (by decide), vlookup_setKey_other _ _ (by decide),
      vlookup_setKey_same]
  · rw [hsplit, vlookup_dictUpdate_not_mem _ _ _
      (hnotin _ (by simp [mandatoryFields])), hchain,
      vlookup_setKey_other _ _ (by decide), vlookup_setKey_same]
  · rw [hsplit, vlookup_dictUpdate_not_mem _ _ _
      (hnotin _ (by simp [mandatoryFields])), hchain, vlookup_setKey_same]
  · intro k v hmem hnd
    rw [hsplit]
    exact vlookup_dictUpdate_mem_nodup _ _ _ _ hmem hnd

theorem c5_parameter_merge_amended_witness :
    inputDefault.write_parameter_file [("x", PVal.n 1)] "categ" "sys" "mags" ⟨true, "p"⟩
      [("x", PVal.n 2), ("y", PVal.n 7)] =
      .ok (resolveParfile inputDefault ⟨true, "p"⟩,
        dictUpdate [("x", PVal.n 1)]
          (mandatoryFields inputDefault "categ" "sys" "mags" ++
            [("x", PVal.n 2), ("y", PVal.n 7)])) ∧
    vlookup TT_nres
      (dictUpdate [("x", PVal.n 1)]
        (mandatoryFields inputDefault "categ" "sys" "mags" ++
          [("x", PVal.n 2), ("y", PVal.n 7)])) = some (.n inputDefault.ngb) ∧
    vlookup "x"
      (dictUpdate [("x", PVal.n 1)]
        (mandatoryFields inputDefault "categ" "sys" "mags" ++
          [("x", PVal.n 2), ("y", PVal.n 7)])) = some (.n 2) := by
  have h := c5_parameter_merge_amended inputDefault [("x", PVal.n 1)] "categ" "sys" "mags"
    ⟨true, "p"⟩ [("x", PVal.n 2), ("y", PVal.n 7)] (by decide)
  exact ⟨h.1, h.2.2.2.2.1, h.2.2.2.2.2 "x" (PVal.n 2) (by simp) (by decide)⟩

/-! ### The collapse condition of the former-kernel convention -/

theorem dedup_length_one_iff {α : Type} [DecidableEq α] (l : List α) :
    l.dedup.length = 1 ↔ l ≠ [] ∧ ∀ a ∈ l, ∀ b ∈ l, a = b := by
  constructor
  · intro h
    obtain ⟨a, ha⟩ := List.length_eq_one.1 h
    have hmem : ∀ x ∈ l, x = a := by
      intro x hx
      have hxd : x ∈ l.dedup := List.mem_dedup.2 hx
      rw [ha] at hxd
      simpa using hxd
    refine ⟨?_, fun x hx y hy => by rw [hmem x hx, hmem y hy]⟩
    intro hnil
    rw [hnil] at ha
    simp at ha
  · rintro ⟨hne, hall⟩
    cases hd : l.dedup with
    | nil => exact absurd ((List.dedup_eq_nil _).1 hd) hne
    | cons x s =>
      cases s with
      | nil => rfl
      | cons y s2 =>
        exfalso
        have hnd := l.nodup_dedup
        rw [hd, List.nodup_cons] at hnd
        have hx : x ∈ l := List.mem_dedup.1 (by rw [hd]; exact List.mem_cons_self _ _)
        have hy : y ∈ l := List.mem_dedup.1
          (by rw [hd]; exact List.mem_cons_of_mem _ (List.mem_cons_self _ _))
        have hxy : x = y := hall x hx y hy
        exact hnd.1 (hxy ▸ List.mem_cons_self y s2)

theorem collapseCheck_iff (kn : List ℝ) :
    collapseCheck kn = true ↔
      (kn ≠ [] ∧ ∀ a ∈ kn.map (fun x => npRound (x / (2 * f64eps))),
        ∀ b ∈ kn.map (fun x => npRound (x / (2 * f64eps))), a = b) := by
  unfold collapseCheck
  rw [beq_iff_eq, dedup_length_one_iff]
  constructor
  · rintro ⟨h1, h2⟩
    exact ⟨fun h => h1 (by rw [h]; rfl), h2⟩
  · rintro ⟨h1, h2⟩
    refine ⟨fun h => h1 (List.map_eq_nil_iff.1 h), h2⟩

/-- C3: in reconstruction mode with the former-kernel flag, the
per-particle normalization is `knorm = k_factor/(sqrt(ngb)*cbrt((4/3)π))`;
when all particles' `knorm` values round to the same integer after
division by twice the machine epsilon of their dtype, the derivation
collapses `knorm` to the single scalar median of the array (`Sum.inl`),
otherwise it keeps the per-particle array (`Sum.inr`); and the recovered
velocity density is `(sqrt(ngb) * knorm / stored_kernel[:,1])^3` with the
collapsed (broadcast scalar) or per-particle `knorm`. -/
theorem c3_former_convention (ngb : ℕ) (kf : KernelFile) :
    knormRaw ngb kf =
      (kFactorArr kf).map (fun c => c / (Real.sqrt ngb * cbrt FOURTHIRDPI)) ∧
    ((knormRaw ngb kf ≠ [] ∧
        ∀ a ∈ (knormRaw ngb kf).map (fun x => npRound (x / (2 * f64eps))),
        ∀ b ∈ (knormRaw ngb kf).map (fun x => npRound (x / (2 * f64eps))), a = b) →
      formerDerive ngb kf =
        (Sum.inl (npMedian (knormRaw ngb kf)),
         kf.h_cubic.map (fun h => (Real.sqrt ngb * npMedian (knormRaw ngb kf) / h.2) ^ 3))) ∧
    (¬(knormRaw ngb kf ≠ [] ∧
        ∀ a ∈ (knormRaw ngb kf).map (fun x => npRound (x / (2 * f64eps))),
        ∀ b ∈ (knormRaw ngb kf).map (fun x => npRound (x / (2 * f64eps))), a = b) →
      formerDerive ngb kf =
        (Sum.inr (knormRaw ngb kf),
         List.zipWith (fun c h => (Real.sqrt ngb * c / h.2) ^ 3)
           (knormRaw ngb kf) kf.h_cubic)) := by
  refine ⟨rfl, ?_, ?_⟩
  · intro hcond
    simp only [formerDerive]
    rw [if_pos ((collapseCheck_iff _).2 hcond)]
  · intro hcond
    simp only [formerDerive]
    rw [if_neg (fun hc => hcond ((collapseCheck_iff _).1 hc))]

def c3kf : KernelFile := ⟨[0], [(0, 1)], [1]⟩

def c3kfEmpty : KernelFile := ⟨[], [], []⟩

theorem c3_former_convention_witness :
    formerDerive 4 c3kf =
      (Sum.inl (npMedian (knormRaw 4 c3kf)),
       c3kf.h_cubic.map
         (fun h => (Real.sqrt ((4 : ℕ) : ℝ) * npMedian (knormRaw 4 c3kf) / h.2) ^ 3)) ∧
    formerDerive 4 c3kfEmpty =
      (Sum.inr (knormRaw 4 c3kfEmpty),
       List.zipWith (fun c h => (Real.sqrt ((4 : ℕ) : ℝ) * c / h.2) ^ 3)
         (knormRaw 4 c3kfEmpty) c3kfEmpty.h_cubic) := by
  refine ⟨(c3_former_convention 4 c3kf).2.1 ⟨?_, ?_⟩,
          (c3_former_convention 4 c3kfEmpty).2.2 ?_⟩
  · show knormRaw 4 c3kf ≠ []
    have : knormRaw 4 c3kf =
        [0 * cbrt (FOURTHIRDPI * 0) / (Real.sqrt ((4 : ℕ) : ℝ) * cbrt FOURTHIRDPI)] := rfl
    rw [this]
    simp
  · intro a ha b hb
    have hsing : (knormRaw 4 c3kf).map (fun x => npRound (x / (2 * f64eps))) =
        [npRound (0 * cbrt (FOURTHIRDPI * 0) /
          (Real.sqrt ((4 : ℕ) : ℝ) * cbrt FOURTHIRDPI) / (2 * f64eps))] := rfl
    rw [hsing] at ha hb
    rw [List.mem_singleton] at ha hb
    rw [ha, hb]
  · rintro ⟨hne, -⟩
    exact hne rfl

/-! ### Round-trip algebra for the written kernel file -/

theorem kFactorArr_written (rp rv m : List ℝ) (k : ℝ)
    (hrp : ∀ x ∈ rp, 0 < x) (hlen : rv.length = rp.length) :
    kFactorArr ⟨rp, (rp.zip rv).map
      (fun r => (k / cbrt (FOURTHIRDPI * r.1), k / cbrt (FOURTHIRDPI * r.2))), m⟩ =
    rp.map (fun _ => k) := by
  unfold kFactorArr
  induction rp generalizing rv with
  | nil => rfl
  | cons a t ih =>
    cases rv with
    | nil => simp at hlen
    | cons b s =>
      simp only [List.zip_cons_cons, List.map_cons, List.zipWith_cons_cons]
      have hpos : (0 : ℝ) < FOURTHIRDPI * a :=
        mul_pos FOURTHIRDPI_pos (hrp a (List.mem_cons_self a t))
      rw [div_mul_cancel₀ _ (ne_of_gt (cbrt_pos hpos))]
      refine congrArg (List.cons k) ?_
      exact ih s (fun x hx => hrp x (List.mem_cons_of_mem _ hx)) (by simpa using hlen)

theorem currentRhoVel_written (rp rv m : List ℝ) (k : ℝ)
    (hrp : ∀ x ∈ rp, 0 < x) (hrv : ∀ x ∈ rv, 0 < x) (hk : k ≠ 0)
    (hlen : rv.length = rp.length) :
    currentRhoVel ⟨rp, (rp.zip rv).map
      (fun r => (k / cbrt (FOURTHIRDPI * r.1), k / cbrt (FOURTHIRDPI * r.2))), m⟩ = rv := by
  unfold currentRhoVel
  rw [kFactorArr_written rp rv m k hrp hlen]
  induction rp generalizing rv with
  | nil =>
    cases rv with
    | nil => rfl
    | cons b s => simp at hlen
  | cons a t ih =>
    cases rv with
    | nil => simp at hlen
    | cons b s =>
      simp only [List.zip_cons_cons, List.map_cons, List.zipWith_cons_cons]
      have hposb : (0 : ℝ) < FOURTHIRDPI * b :=
        mul_pos FOURTHIRDPI_pos (hrv b (List.mem_cons_self b s))
      have hc : cbrt (FOURTHIRDPI * b) ≠ 0 := ne_of_gt (cbrt_pos hposb)
      have hdd : k / (k / cbrt (FOURTHIRDPI * b)) = cbrt (FOURTHIRDPI * b) := by
        rw [div_div_eq_mul_div, mul_div_cancel_left₀ _ hk]
      rw [hdd, cbrt_cube hposb.le, mul_div_cancel_left₀ _ (ne_of_gt FOURTHIRDPI_pos)]
      refine congrArg (List.cons b) ?_
      exact ih s (fun x hx => hrp x (List.mem_cons_of_mem _ hx))
        (fun x hx => hrv x (List.mem_cons_of_mem _ hx)) (by simpa using hlen)

/-- C1 (amended): round trip.  Writing the kernel and particle files of a
freshly constructed `Input` (positive densities, nonzero scale factor) and
reconstructing a second `Input` in file-based mode from those files
recovers the original density, mass and velocity-density arrays exactly
in the real-number model (within floating-point tolerance in the source):
the reconstructed per-particle `k_factor` equals
`stored_kernel[:,0] * cbrt((4/3)π * rho_pos)` — which collapses back to
the original scalar at every particle — and the recovered `rho_vel`,
computed as `(k_factor / stored_kernel[:,1])^3 / ((4/3)π)`, equals the
original velocity density.  The kernel arrays, however, are reproduced
only for one or two particles (for two only because every reconstructed
factor carries the same scalar value, so numpy's pairing of factor entry
`j` with column `j` is numerically harmless); for any other particle
count the reconstructed `Input`'s kernels derivation raises a broadcast
error, modelled by `none`, because file mode stores a per-particle `(N,)`
`k_factor` that the kernels property divides by the `(N,2)` density
stack. -/
theorem c1_roundtrip_amended (p : Pdict) (rp rv : List ℝ) (d nm : String) (ngb : ℕ) (k : ℝ)
    (i0 : Input) (K : KernelFile) (P : Pdict) (kpath ppath : FPath) (i1 : Input)
    (h0 : Input.fromArrays p rp (some rv) d nm ngb k = .ok i0)
    (hK : i0.write_kernels = .ok (some K, kpath))
    (hP : i0.write_particles = (some P, ppath))
    (h1 : Input.fromFiles ppath kpath P K false = .ok i1)
    (hrp : ∀ x ∈ rp, 0 < x) (hrv : ∀ x ∈ rv, 0 < x) (hk : k ≠ 0)
    (hlen : rv.length = rp.length) :
    i1.rho_pos = i0.rho_pos ∧
    i1.massArr = i0.massArr ∧
    i1.k_factor = .inr (List.zipWith (fun h dd => h.1 * cbrt (FOURTHIRDPI * dd))
      K.h_cubic K.density) ∧
    i1.k_factor = .inr (rp.map (fun _ => k)) ∧
    i1.rho_vel = some rv ∧
    (rp.length = 1 ∨ rp.length = 2 → i1.kernels = i0.kernels) ∧
    (rp.length ≠ 1 → rp.length ≠ 2 → i1.kernels = none) := by
  obtain ⟨hver0, hi0⟩ := fromArrays_ok h0
  have f0p : i0.particles = fillDefaults p := by rw [hi0]
  have f0rp : i0.rho_pos = rp := by rw [hi0]
  have f0rv : i0.rho_vel = some rv := by rw [hi0]
  have f0kf : i0.k_factor = Sum.inl k := by rw [hi0]
  have f0fe : i0.files_exist = false := by rw [hi0]
  have hks0 : i0.kernels = some ((rp.zip rv).map
      (fun r => (k / cbrt (FOURTHIRDPI * r.1), k / cbrt (FOURTHIRDPI * r.2)))) := by
    unfold Input.kernels Input.rhoPairs
    rw [f0rv, f0rp, f0kf]
  have hwk : i0.write_kernels = .ok (some ⟨rp, (rp.zip rv).map
      (fun r => (k / cbrt (FOURTHIRDPI * r.1), k / cbrt (FOURTHIRDPI * r.2))),
      i0.massArr⟩, i0.knameF) := by
    unfold Input.write_kernels
    rw [f0fe, hks0, f0rp]
    rfl
  rw [hwk] at hK
  injection hK with hKpair
  have hKK : K = ⟨rp, (rp.zip rv).map
      (fun r => (k / cbrt (FOURTHIRDPI * r.1), k / cbrt (FOURTHIRDPI * r.2))),
      i0.massArr⟩ := (Option.some.inj (congrArg Prod.fst hKpair)).symm
  have hwp : i0.write_particles =
      (some (requiredKeysList.map (fun q => (q, (plookup q i0.particles).getD [])) ++
        optionalKeysList.map (fun q => (q, (plookup q i0.particles).getD
          (List.replicate i0.length 0)))), i0.pnameF) := by
    unfold Input.write_particles
    rw [f0fe]
    rfl
  rw [hwp] at hP
  have hPP : P = requiredKeysList.map (fun q => (q, (plookup q i0.particles).getD [])) ++
      optionalKeysList.map (fun q => (q, (plookup q i0.particles).getD
        (List.replicate i0.length 0))) :=
    (Option.some.inj (congrArg Prod.fst hP)).symm
  obtain ⟨nm1, dg1, dg2, -, -, -, hi1⟩ := fromFiles_ok h1
  have e1 : i1.rho_pos = K.density := by rw [hi1]
  have e2 : i1.particles = fillDefaults P := by rw [hi1]
  have e5 : i1.rho_vel = some (currentRhoVel K) := by rw [hi1]; rfl
  have e6 : i1.k_factor = Sum.inr (kFactorArr K) := by rw [hi1]; rfl
  have hKd : K.density = rp := by rw [hKK]
  have hkfK : kFactorArr K = rp.map (fun _ => k) := by
    rw [hKK]
    exact kFactorArr_written rp rv i0.massArr k hrp hlen
  have hrv1 : currentRhoVel K = rv := by
    rw [hKK]
    exact currentRhoVel_written rp rv i0.massArr k hrp hrv hk hlen
  have hmassP : plookup "mass" P = some i0.massArr := by
    rw [hPP, plookup_append, plookup_keyed_map_mem requiredKeysList _ "mass" (by decide)]
    rfl
  have hmass1 : plookup "mass" i1.particles = some i0.massArr := by
    rw [e2]
    exact plookup_fillDefaults_of_some hmassP
  refine ⟨?_, ?_, ?_, ?_, ?_, ?_, ?_⟩
  · rw [e1, hKd, f0rp]
  · unfold Input.massArr
    rw [hmass1]
    rfl
  · rw [e6]
    rfl
  · rw [e6, hkfK]
  · rw [e5, hrv1]
  · intro hN
    rw [hks0]
    unfold Input.kernels Input.rhoPairs
    rw [e5, hrv1, e1, hKd, e6, hkfK]
    rcases hN with hN1 | hN2
    · obtain ⟨a, rfl⟩ := List.length_eq_one.1 hN1
      rfl
    · obtain ⟨a, b, rfl⟩ := List.length_eq_two.1 hN2
      rfl
  · intro hN1 hN2
    unfold Input.kernels Input.rhoPairs
    rw [e5, e6, hkfK]
    rcases rp with _ | ⟨a, _ | ⟨b, t⟩⟩
    · rfl
    · exact absurd rfl hN1
    · cases t with
      | nil => exact absurd rfl hN2
      | cons c t2 => rfl

noncomputable def c1i0 : Input :=
  (Input.fromArrays smallParticles [1] (some [1]) "d" "sim" 64 1).toOption.getD inputDefault

noncomputable def c1K : KernelFile :=
  (((c1i0.write_kernels).toOption.getD (none, ⟨"", ""⟩)).1).getD ⟨[], [], []⟩

noncomputable def c1kpath : FPath := ((c1i0.write_kernels).toOption.getD (none, ⟨"", ""⟩)).2

noncomputable def c1P : Pdict := ((c1i0.write_particles).1).getD []

noncomputable def c1ppath : FPath := (c1i0.write_particles).2

noncomputable def c1i1 : Input :=
  (Input.fromFiles c1ppath c1kpath c1P c1K false).toOption.getD inputDefault

def c1bp : Pdict :=
  [("pos3", [1, 1, 1]), ("vel3", [1, 1, 1]), ("mass", [1, 1, 1]),
   ("age", [1, 1, 1]), ("feh", [1, 1, 1])]

noncomputable def c1bi0 : Input :=
  (Input.fromArrays c1bp [1, 1, 1] (some [1, 1, 1]) "d" "sim" 64 1).toOption.getD inputDefault

noncomputable def c1bK : KernelFile :=
  (((c1bi0.write_kernels).toOption.getD (none, ⟨"", ""⟩)).1).getD ⟨[], [], []⟩

noncomputable def c1bkpath : FPath := ((c1bi0.write_kernels).toOption.getD (none, ⟨"", ""⟩)).2

noncomputable def c1bP : Pdict := ((c1bi0.write_particles).1).getD []

noncomputable def c1bppath : FPath := (c1bi0.write_particles).2

noncomputable def c1bi1 : Input :=
  (Input.fromFiles c1bppath c1bkpath c1bP c1bK false).toOption.getD inputDefault

/-- C1 counterexample to the original claim, at a three-particle round
trip.  The file-based reconstruction succeeds and stores the per-particle
`(3,)` `k_factor`, so the reconstructed `Input`'s kernels property divides
it by the `(3,2)` density stack and numpy raises a broadcast `ValueError`
(modelled by `none`): the kernel arrays of the two Inputs are not
numerically equivalent — the reconstructed `Input` has no kernel array at
all, while the original one does. -/
theorem c1_kernels_not_equivalent :
    Input.fromFiles c1bppath c1bkpath c1bP c1bK false = .ok c1bi1 ∧
    c1bi1.kernels = none ∧
    c1bi0.kernels ≠ none ∧
    c1bi1.kernels ≠ c1bi0.kernels := by
  have h0 : c1bi0.kernels = some ((([(1 : ℝ), 1, 1]).zip [(1 : ℝ), 1, 1]).map
      (fun r => ((1 : ℝ) / cbrt (FOURTHIRDPI * r.1),
                 (1 : ℝ) / cbrt (FOURTHIRDPI * r.2)))) := rfl
  have hb1 : c1bi1.kernels = none := rfl
  refine ⟨rfl, hb1, ?_, ?_⟩
  · rw [h0]
    simp
  · rw [h0, hb1]
    simp

theorem c1_roundtrip_amended_witness :
    c1i1.rho_pos = c1i0.rho_pos ∧
    c1i1.massArr = c1i0.massArr ∧
    c1i1.k_factor = .inr (List.zipWith (fun h dd => h.1 * cbrt (FOURTHIRDPI * dd))
      c1K.h_cubic c1K.density) ∧
    c1i1.k_factor = .inr ([(1 : ℝ)].map (fun _ => (1 : ℝ))) ∧
    c1i1.rho_vel = some [1] ∧
    c1i1.kernels = c1i0.kernels ∧
    c1bi1.kernels = none := by
  have hpos1 : ∀ x ∈ [(1 : ℝ)], 0 < x := by
    intro x hx
    rw [List.mem_singleton] at hx
    rw [hx]
    norm_num
  have hpos3 : ∀ x ∈ [(1 : ℝ), 1, 1], 0 < x := by
    intro x hx
    simp at hx
    rw [hx]
    norm_num
  have h := c1_roundtrip_amended smallParticles [1] [1] "d" "sim" 64 1
    c1i0 c1K c1P c1kpath c1ppath c1i1 rfl rfl rfl rfl hpos1 hpos1 (by norm_num) rfl
  have hb := c1_roundtrip_amended c1bp [1, 1, 1] [1, 1, 1] "d" "sim" 64 1
    c1bi0 c1bK c1bP c1bkpath c1bppath c1bi1 rfl rfl rfl rfl hpos3 hpos3 (by norm_num) rfl
  exact ⟨h.1, h.2.1, h.2.2.1, h.2.2.2.1, h.2.2.2.2.1,
    h.2.2.2.2.2.1 (Or.inl rfl),
    hb.2.2.2.2.2.2 (by norm_num) (by norm_num)⟩
